import Mathlib

/-!
Verification development for the gesture-driven 3D carousel interaction engine
of `src/components/CircularGallery.tsx` together with the swipe-to-close
detector of `src/App.tsx`.

The per-frame `update` closure of `CircularGallery` is embedded shallowly:
JavaScript floating-point numbers are idealized as real numbers, wall-clock
milliseconds (`Date.now()`) as naturals, and the two external capabilities
(the hand tracker's cursor sample and the renderer's raycast hit-test) are
passed in as per-frame inputs.  The composite JavaScript expression
`Math.atan2(Math.sin(a), Math.cos(a))` is embedded as `wrapAngle a`, the
unique representative of `a` modulo `2 * pi` in the interval `(-pi, pi]`,
which is exactly the value that expression computes.
-/

namespace Jabidan

open scoped Classical

/-- One cursor sample from the hand tracker (`HandCursor` in `src/types.ts`):
normalized coordinates with visibility and pinch flags. -/
structure Cursor where
  x : ℝ
  y : ℝ
  isPinching : Bool
  isVisible : Bool

/-- The mutable gallery state held in the `galleryState` ref of
`CircularGallery.tsx` (lines 211-221), restricted to the fields the per-frame
update reads or writes (`itemWidth`, `padding`, `totalWidth` and
`currentSpeed` are constants or never read). -/
@[ext]
structure GalleryState where
  scrollCurrent : ℝ
  scrollTarget : ℝ
  activeIndex : ℕ
  isPinching : Bool
  lastPinchTime : ℕ

/-- Per-item animation state (the `meshStates` ref, line 224), together with
the per-mesh `uHover` shader uniform which is smoothed the same way. -/
structure MeshState where
  scale : ℝ
  zOffset : ℝ
  hover : ℝ

/-- Initial gallery state at mount (lines 211-221). -/
def initialGalleryState : GalleryState :=
  { scrollCurrent := 0, scrollTarget := 0, activeIndex := 0,
    isPinching := false, lastPinchTime := 0 }

/-- Initial per-item animation state: `{ scale: 1, zOffset: 0 }` with the
`uHover` uniform initialized to `0` (lines 224, 299). -/
def initialMeshState : MeshState := { scale := 1, zOffset := 0, hover := 0 }

/-- Dead-zone half width (line 335). -/
def deadZone : ℝ := 0.15

/-- Horizontal screen center (line 336). -/
def center : ℝ := 0.5

/-- Ring radius (line 317). -/
def radius : ℝ := 6

/-- The scrolling target speed computed from one cursor sample
(lines 330-344): `0` when a detail view is open or the cursor is invisible,
otherwise a dead-zone-filtered, eased and signed speed. -/
noncomputable def targetSpeedOf (isDetailOpen : Bool) (c : Cursor) : ℝ :=
  if isDetailOpen = false ∧ c.isVisible = true then
    if c.x > center + deadZone then
      ((c.x - (center + deadZone)) / (0.5 - deadZone)) ^ (0.6 : ℝ) * 0.2
    else if c.x < center - deadZone then
      (-(((center - deadZone) - c.x) / (0.5 - deadZone)) ^ (0.6 : ℝ)) * 0.2
    else 0
  else 0

/-- The hovered item index computed by the raycast block (lines 367-376).
The raycast itself is an external rendering capability; `rayHit` is the index
in the mesh list of the first hit, if any.  The block only runs when the
cursor is visible, no detail view is open and the cursor is not pinching;
otherwise the local `hoveredIndex` keeps its initial value `-1`. -/
def hoveredIndexOf (c : Cursor) (isDetailOpen : Bool) (rayHit : Option ℕ) : ℤ :=
  if c.isVisible = true ∧ isDetailOpen = false ∧ c.isPinching = false then
    match rayHit with
    | some i => (i : ℤ)
    | none => -1
  else -1

/-- The central activation rectangle for pinches (line 379). -/
def isInPinchableArea (c : Cursor) : Prop :=
  c.x > 0.2 ∧ c.x < 0.8 ∧ c.y > 0.2 ∧ c.y < 0.8

/-- The pinch arbitration block (lines 378-391).  Returns the new
`isPinching` flag, the new `lastPinchTime`, and the index passed to
`onItemSelect` when a selection fires. -/
noncomputable def pinchStep (now : ℕ) (c : Cursor) (hov : ℤ) (activeIndex : ℕ)
    (wasPinching : Bool) (lastPinchTime : ℕ) : Bool × ℕ × Option ℤ :=
  if c.isVisible = true ∧ isInPinchableArea c ∧ c.isPinching = true then
    if wasPinching = false ∧ lastPinchTime + 1000 < now then
      (true, now, some (if hov ≠ -1 then hov else (activeIndex : ℤ)))
    else
      (true, lastPinchTime, none)
  else
    (false, lastPinchTime, none)

/-- Target scale for item `i` (lines 413-416), in the code's priority order:
selected, any-other-selected, hovered, idle. -/
def targetScaleOf (selectedIndex : Option ℕ) (hov : ℤ) (i : ℕ) : ℝ :=
  if selectedIndex = some i then 1.3
  else if selectedIndex.isSome = true then 0.8
  else if (i : ℤ) = hov then 1.15
  else 1.0

/-- Target depth offset for item `i` (lines 419-422). -/
def targetZOffsetOf (selectedIndex : Option ℕ) (hov : ℤ) (i : ℕ) : ℝ :=
  if selectedIndex = some i then 2.5
  else if selectedIndex.isSome = true then -1.0
  else if (i : ℤ) = hov then 0.5
  else 0

/-- One smoothing step of the per-item animation state (lines 424-430):
`v += (target - v) * 0.1` for scale, z-offset and the hover uniform. -/
def meshStep (selectedIndex : Option ℕ) (hov : ℤ) (i : ℕ) (m : MeshState) :
    MeshState :=
  { scale := m.scale + (targetScaleOf selectedIndex hov i - m.scale) * 0.1,
    zOffset := m.zOffset + (targetZOffsetOf selectedIndex hov i - m.zOffset) * 0.1,
    hover := m.hover + ((if (i : ℤ) = hov then (1 : ℝ) else 0) - m.hover) * 0.1 }

/-- The updated per-item animation states after one frame: the `forEach`
loop body at lines 404-430 applied to each index of the mesh list. -/
def meshesAfter (selectedIndex : Option ℕ) (hov : ℤ) (count : ℕ)
    (ms : List MeshState) : List MeshState :=
  (List.range count).map (fun i => meshStep selectedIndex hov i (ms.getD i initialMeshState))

/-- Angular step between adjacent items: `(Math.PI * 2) / count` (line 318). -/
noncomputable def angleStepOf (count : ℕ) : ℝ := 2 * Real.pi / (count : ℝ)

/-- Angle of item `i` at scroll position `sc`:
`(i * angleStep) - scrollCurrent` (line 432). -/
noncomputable def itemAngle (count : ℕ) (sc : ℝ) (i : ℕ) : ℝ :=
  (i : ℝ) * angleStepOf count - sc

/-- Embedding of `Math.atan2(Math.sin(a), Math.cos(a))` (line 440): the
representative of `a` modulo `2 * pi` lying in `(-pi, pi]`. -/
noncomputable def wrapAngle (a : ℝ) : ℝ :=
  a - 2 * Real.pi * (⌈a / (2 * Real.pi) - 1 / 2⌉ : ℤ)

/-- The front-most test at line 441: the item's wrapped angle is strictly
within half an angle-step of zero. -/
noncomputable def activeCond (count : ℕ) (sc : ℝ) (i : ℕ) : Prop :=
  |wrapAngle (itemAngle count sc i)| < angleStepOf count / 2

/-- Loop body of the active-index scan (lines 439-444): each index whose
angle passes the front-most test overwrites the accumulator. -/
noncomputable def activeFoldF (isDetailOpen : Bool) (count : ℕ) (sc : ℝ)
    (acc i : ℕ) : ℕ :=
  if isDetailOpen = false ∧ activeCond count sc i then i else acc

/-- The active index after the per-item loop of one frame, starting from the
previous frame's value. -/
noncomputable def activeIndexAfter (isDetailOpen : Bool) (count : ℕ) (sc : ℝ)
    (init : ℕ) : ℕ :=
  (List.range count).foldl (activeFoldF isDetailOpen count sc) init

/-- Spatial placement of one item as written to its mesh (lines 432-437). -/
structure Placement where
  posX : ℝ
  posZ : ℝ
  rotY : ℝ
  scaleOut : ℝ

/-- Placement of item `i` (lines 432-437): ring position from the item
angle, depth shifted by the smoothed `zOffset`, facing rotation equal to the
angle, scale from the smoothed per-item scale. -/
noncomputable def placementOf (count : ℕ) (sc : ℝ) (i : ℕ) (m : MeshState) :
    Placement :=
  { posX := Real.sin (itemAngle count sc i) * radius,
    posZ := (Real.cos (itemAngle count sc i) * radius - radius) + m.zOffset,
    rotY := itemAngle count sc i,
    scaleOut := m.scale }

/-- All placements of one frame, computed from the already-updated mesh
states and scroll position. -/
noncomputable def placementsAfter (count : ℕ) (sc : ℝ) (ms : List MeshState) :
    List Placement :=
  (List.range count).map (fun i => placementOf count sc i (ms.getD i initialMeshState))

/-- Inputs read by one execution of the `update` closure: the rAF/wall
clock, the latest cursor sample, the application's `selectedIndex` prop, and
the raycast result provided by the rendering capability. -/
structure FrameInput where
  now : ℕ
  cursor : Cursor
  selectedIndex : Option ℕ
  rayHit : Option ℕ

/-- The new `scrollTarget` after the accumulation at line 346, which runs
exactly once per frame, only in the scrolling block gated by
`!isDetailOpen && cursor.isVisible` (line 333). -/
noncomputable def scrollTargetAfter (inp : FrameInput) (st : GalleryState) : ℝ :=
  if inp.selectedIndex.isSome = false ∧ inp.cursor.isVisible = true then
    st.scrollTarget + targetSpeedOf inp.selectedIndex.isSome inp.cursor
  else st.scrollTarget

/-- The new `scrollCurrent` after the exponential-smoothing step at line
401, which reads the already-updated `scrollTarget`. -/
noncomputable def scrollCurrentAfter (inp : FrameInput) (st : GalleryState) : ℝ :=
  st.scrollCurrent + (scrollTargetAfter inp st - st.scrollCurrent) * 0.1

/-- Observable result of one frame: the new engine state, the new per-item
animation states, the item placements written to the meshes, the hovered
index, the frame's target speed (also fed to the HUD ring and audio drone),
and the argument of the `onItemSelect` callback when a selection fired. -/
structure FrameResult where
  state : GalleryState
  meshes : List MeshState
  placements : List Placement
  hoveredIndex : ℤ
  targetSpeed : ℝ
  fired : Option ℤ

/-- One execution of the `update` closure (lines 322-448) of
`CircularGallery.tsx`, assembled from the blocks above in the code's data
flow: scroll accumulation, hover raycast, pinch arbitration (which reads the
previous frame's `activeIndex`), scroll smoothing, then the per-item loop
updating animation states, placements and the active index. -/
noncomputable def frameUpdate (count : ℕ) (inp : FrameInput) (st : GalleryState)
    (ms : List MeshState) : FrameResult :=
  { state :=
      { scrollCurrent := scrollCurrentAfter inp st,
        scrollTarget := scrollTargetAfter inp st,
        activeIndex := activeIndexAfter inp.selectedIndex.isSome count
          (scrollCurrentAfter inp st) st.activeIndex,
        isPinching := (pinchStep inp.now inp.cursor
          (hoveredIndexOf inp.cursor inp.selectedIndex.isSome inp.rayHit)
          st.activeIndex st.isPinching st.lastPinchTime).1,
        lastPinchTime := (pinchStep inp.now inp.cursor
          (hoveredIndexOf inp.cursor inp.selectedIndex.isSome inp.rayHit)
          st.activeIndex st.isPinching st.lastPinchTime).2.1 },
    meshes := meshesAfter inp.selectedIndex
      (hoveredIndexOf inp.cursor inp.selectedIndex.isSome inp.rayHit) count ms,
    placements := placementsAfter count (scrollCurrentAfter inp st)
      (meshesAfter inp.selectedIndex
        (hoveredIndexOf inp.cursor inp.selectedIndex.isSome inp.rayHit) count ms),
    hoveredIndex := hoveredIndexOf inp.cursor inp.selectedIndex.isSome inp.rayHit,
    targetSpeed := targetSpeedOf inp.selectedIndex.isSome inp.cursor,
    fired := (pinchStep inp.now inp.cursor
      (hoveredIndexOf inp.cursor inp.selectedIndex.isSome inp.rayHit)
      st.activeIndex st.isPinching st.lastPinchTime).2.2 }

/-- The actionable-pinch condition of line 380: the cursor is visible, lies
in the central activation rectangle, and is pinching. -/
def actionable (c : Cursor) : Prop :=
  c.isVisible = true ∧ isInPinchableArea c ∧ c.isPinching = true

/-- The list of all selection events fired while running a sequence of
frames from a given state. -/
noncomputable def firedTrace (count : ℕ) : List FrameInput → GalleryState →
    List MeshState → List ℤ
  | [], _, _ => []
  | inp :: rest, st, ms =>
    (frameUpdate count inp st ms).fired.toList ++
      firedTrace count rest (frameUpdate count inp st ms).state
        (frameUpdate count inp st ms).meshes

/-- Full system state: the mounted item count together with the persistent
`galleryState` and `meshStates` refs. -/
structure SysState where
  count : ℕ
  st : GalleryState
  ms : List MeshState

/-- Effect of an item-list change (lines 227-231 of `CircularGallery.tsx`):
the mesh states are recreated and the scroll is reset, while `activeIndex`,
`isPinching` and `lastPinchTime` persist in the ref. -/
def itemsChange (n : ℕ) (s : SysState) : SysState :=
  { count := n,
    st := { s.st with scrollTarget := 0, scrollCurrent := 0 },
    ms := List.replicate n initialMeshState }

/-- Reachable system states: a mount with some item list, followed by any
interleaving of frames (with cursor samples satisfying the tracker contract
`x, y ∈ [0, 1]` and raycast hits among the existing meshes) and item-list
changes to non-empty lists (the `App.tsx` upload handler only replaces the
list when at least one file is chosen). -/
inductive Reachable : SysState → Prop
  | init (n : ℕ) :
      Reachable ⟨n, initialGalleryState, List.replicate n initialMeshState⟩
  | frame {s : SysState} (inp : FrameInput) (hx0 : 0 ≤ inp.cursor.x)
      (hx1 : inp.cursor.x ≤ 1) (hy0 : 0 ≤ inp.cursor.y) (hy1 : inp.cursor.y ≤ 1)
      (hray : ∀ j, inp.rayHit = some j → j < s.count) (h : Reachable s) :
      Reachable ⟨s.count, (frameUpdate s.count inp s.st s.ms).state,
        (frameUpdate s.count inp s.st s.ms).meshes⟩
  | change {s : SysState} (n : ℕ) (hn : 1 ≤ n) (h : Reachable s) :
      Reachable (itemsChange n s)

/-- One first-order low-pass step `v += (t - v) * damping`, the smoothing
pattern used at lines 357-358, 401, 424-425 and 430. -/
def lerpStep (damping t v : ℝ) : ℝ := v + (t - v) * damping

/-- Iterated smoothing toward a constant target. -/
def lerpIter (damping t v : ℝ) : ℕ → ℝ
  | 0 => v
  | n + 1 => lerpStep damping t (lerpIter damping t v n)

/-- State of the swipe-to-close detector of `App.tsx` (lines 47-48): the
previous frame's vertical coordinate and the cooldown timestamp. -/
structure SwipeState where
  lastY : ℝ
  cooldown : ℕ

/-- One run of the swipe-detection effect of `App.tsx` (lines 50-67).
Returns the new detector state and whether a close request fired.  The
stored previous Y is updated to the current Y on every run, firing or not. -/
noncomputable def swipeStep (now : ℕ) (cursorY : ℝ) (isVisible : Bool)
    (detailOpen : Bool) (s : SwipeState) : SwipeState × Bool :=
  if detailOpen = true ∧ isVisible = true then
    if cursorY - s.lastY > 0.03 ∧ s.cooldown + 800 < now then
      ({ lastY := cursorY, cooldown := now }, true)
    else
      ({ lastY := cursorY, cooldown := s.cooldown }, false)
  else
    ({ lastY := cursorY, cooldown := s.cooldown }, false)

/-! ### Basic lemmas about the frame pieces -/

theorem natCast_ne_negOne (i : ℕ) : (i : ℤ) ≠ -1 := by omega

theorem getD_self_replicate {α : Type} (a : α) (i n : ℕ) :
    (List.replicate n a).getD i a = a := by
  rcases lt_or_le i n with h | h
  · rw [List.getD_eq_getElem?_getD]
    simp [List.getElem?_replicate, h]
  · rw [List.getD_eq_getElem?_getD, List.getElem?_eq_none (by simpa using h)]
    rfl

theorem hoveredIndexOf_pinching (c : Cursor) (d : Bool) (r : Option ℕ)
    (h : c.isPinching = true) : hoveredIndexOf c d r = -1 := by
  simp [hoveredIndexOf, h]

theorem hoveredIndexOf_rayNone (c : Cursor) (d : Bool) :
    hoveredIndexOf c d none = -1 := by
  unfold hoveredIndexOf; split <;> rfl

theorem hoveredIndexOf_cases (c : Cursor) (d : Bool) (r : Option ℕ) :
    hoveredIndexOf c d r = -1 ∨ 0 ≤ hoveredIndexOf c d r := by
  unfold hoveredIndexOf
  split
  · cases r with
    | none => exact Or.inl rfl
    | some i => exact Or.inr (by positivity)
  · exact Or.inl rfl

theorem pinchStep_fires {now : ℕ} {c : Cursor} {hov : ℤ} {ai : ℕ}
    {wasP : Bool} {last : ℕ} (ha : actionable c) (hw : wasP = false)
    (hcool : last + 1000 < now) :
    pinchStep now c hov ai wasP last =
      (true, now, some (if hov ≠ -1 then hov else (ai : ℤ))) := by
  rw [pinchStep,
    if_pos (show c.isVisible = true ∧ isInPinchableArea c ∧ c.isPinching = true from ha),
    if_pos ⟨hw, hcool⟩]

theorem pinchStep_held {now : ℕ} {c : Cursor} {hov : ℤ} {ai : ℕ}
    {wasP : Bool} {last : ℕ} (ha : actionable c)
    (h : ¬(wasP = false ∧ last + 1000 < now)) :
    pinchStep now c hov ai wasP last = (true, last, none) := by
  rw [pinchStep,
    if_pos (show c.isVisible = true ∧ isInPinchableArea c ∧ c.isPinching = true from ha),
    if_neg h]

theorem pinchStep_idle {now : ℕ} {c : Cursor} {hov : ℤ} {ai : ℕ}
    {wasP : Bool} {last : ℕ} (h : ¬ actionable c) :
    pinchStep now c hov ai wasP last = (false, last, none) := by
  rw [pinchStep,
    if_neg (show ¬(c.isVisible = true ∧ isInPinchableArea c ∧ c.isPinching = true) from h)]

theorem pinchStep_fired_shape {now : ℕ} {c : Cursor} {hov : ℤ} {ai : ℕ}
    {wasP : Bool} {last : ℕ} {k : ℤ}
    (h : (pinchStep now c hov ai wasP last).2.2 = some k) :
    actionable c ∧ wasP = false ∧ last + 1000 < now ∧
      k = (if hov ≠ -1 then hov else (ai : ℤ)) := by
  unfold pinchStep at h
  split at h
  · split at h
    · rename_i h1 h2
      refine ⟨h1, h2.1, h2.2, ?_⟩
      simpa using h.symm
    · simp at h
  · simp at h

/-! ### Frame-result projections -/

theorem frameUpdate_hoveredIndex (count : ℕ) (inp : FrameInput)
    (st : GalleryState) (ms : List MeshState) :
    (frameUpdate count inp st ms).hoveredIndex =
      hoveredIndexOf inp.cursor inp.selectedIndex.isSome inp.rayHit := rfl

theorem frameUpdate_fired (count : ℕ) (inp : FrameInput) (st : GalleryState)
    (ms : List MeshState) :
    (frameUpdate count inp st ms).fired =
      (pinchStep inp.now inp.cursor
        (hoveredIndexOf inp.cursor inp.selectedIndex.isSome inp.rayHit)
        st.activeIndex st.isPinching st.lastPinchTime).2.2 := rfl

theorem frameUpdate_isPinching (count : ℕ) (inp : FrameInput) (st : GalleryState)
    (ms : List MeshState) :
    (frameUpdate count inp st ms).state.isPinching =
      (pinchStep inp.now inp.cursor
        (hoveredIndexOf inp.cursor inp.selectedIndex.isSome inp.rayHit)
        st.activeIndex st.isPinching st.lastPinchTime).1 := rfl

theorem frameUpdate_lastPinchTime (count : ℕ) (inp : FrameInput)
    (st : GalleryState) (ms : List MeshState) :
    (frameUpdate count inp st ms).state.lastPinchTime =
      (pinchStep inp.now inp.cursor
        (hoveredIndexOf inp.cursor inp.selectedIndex.isSome inp.rayHit)
        st.activeIndex st.isPinching st.lastPinchTime).2.1 := rfl

theorem frameUpdate_scrollTarget (count : ℕ) (inp : FrameInput)
    (st : GalleryState) (ms : List MeshState) :
    (frameUpdate count inp st ms).state.scrollTarget = scrollTargetAfter inp st := rfl

theorem frameUpdate_scrollCurrent (count : ℕ) (inp : FrameInput)
    (st : GalleryState) (ms : List MeshState) :
    (frameUpdate count inp st ms).state.scrollCurrent = scrollCurrentAfter inp st := rfl

theorem frameUpdate_activeIndex (count : ℕ) (inp : FrameInput)
    (st : GalleryState) (ms : List MeshState) :
    (frameUpdate count inp st ms).state.activeIndex =
      activeIndexAfter inp.selectedIndex.isSome count (scrollCurrentAfter inp st)
        st.activeIndex := rfl

theorem frameUpdate_meshes (count : ℕ) (inp : FrameInput) (st : GalleryState)
    (ms : List MeshState) :
    (frameUpdate count inp st ms).meshes =
      meshesAfter inp.selectedIndex
        (hoveredIndexOf inp.cursor inp.selectedIndex.isSome inp.rayHit) count ms := rfl

theorem frameUpdate_placements (count : ℕ) (inp : FrameInput) (st : GalleryState)
    (ms : List MeshState) :
    (frameUpdate count inp st ms).placements =
      placementsAfter count (scrollCurrentAfter inp st)
        (frameUpdate count inp st ms).meshes := rfl

theorem frameUpdate_targetSpeed (count : ℕ) (inp : FrameInput) (st : GalleryState)
    (ms : List MeshState) :
    (frameUpdate count inp st ms).targetSpeed =
      targetSpeedOf inp.selectedIndex.isSome inp.cursor := rfl

/-! ### Target speed and scroll accumulation -/

theorem targetSpeedOf_suspended {d : Bool} {c : Cursor}
    (h : ¬(d = false ∧ c.isVisible = true)) : targetSpeedOf d c = 0 := by
  rw [targetSpeedOf, if_neg h]

theorem targetSpeedOf_right {c : Cursor} (hv : c.isVisible = true)
    (hx : (0.65 : ℝ) < c.x) :
    targetSpeedOf false c = ((c.x - 0.65) / 0.35) ^ (0.6 : ℝ) * 0.2 := by
  rw [targetSpeedOf, if_pos ⟨rfl, hv⟩, if_pos]
  · norm_num [center, deadZone]
  · show c.x > center + deadZone
    simp only [center, deadZone]; linarith

theorem targetSpeedOf_left {c : Cursor} (hv : c.isVisible = true)
    (hx : c.x < (0.35 : ℝ)) :
    targetSpeedOf false c = (-((0.35 - c.x) / 0.35) ^ (0.6 : ℝ)) * 0.2 := by
  rw [targetSpeedOf, if_pos ⟨rfl, hv⟩, if_neg, if_pos]
  · norm_num [center, deadZone]
  · show c.x < center - deadZone
    simp only [center, deadZone]; linarith
  · show ¬(c.x > center + deadZone)
    simp only [center, deadZone]; push_neg; linarith

theorem targetSpeedOf_dead {c : Cursor} (hv : c.isVisible = true)
    (hx1 : (0.35 : ℝ) ≤ c.x) (hx2 : c.x ≤ (0.65 : ℝ)) :
    targetSpeedOf false c = 0 := by
  rw [targetSpeedOf, if_pos ⟨rfl, hv⟩, if_neg, if_neg]
  · show ¬(c.x < center - deadZone)
    rw [center, deadZone]; norm_num; linarith
  · show ¬(c.x > center + deadZone)
    simp only [center, deadZone]; push_neg; linarith

theorem scrollTargetAfter_scrolling {inp : FrameInput} {st : GalleryState}
    (hd : inp.selectedIndex = none) (hv : inp.cursor.isVisible = true) :
    scrollTargetAfter inp st =
      st.scrollTarget + targetSpeedOf false inp.cursor := by
  rw [scrollTargetAfter, if_pos ⟨by rw [hd]; rfl, hv⟩, hd]
  rfl

theorem scrollTargetAfter_frozen {inp : FrameInput} {st : GalleryState}
    (h : ¬(inp.selectedIndex.isSome = false ∧ inp.cursor.isVisible = true)) :
    scrollTargetAfter inp st = st.scrollTarget := by
  rw [scrollTargetAfter, if_neg h]

/-! ### Mesh-state smoothing -/

theorem targetScaleOf_idle (i : ℕ) : targetScaleOf none (-1) i = 1 := by
  rw [targetScaleOf, if_neg (by simp), if_neg (by simp), if_neg (natCast_ne_negOne i)]
  norm_num

theorem targetZOffsetOf_idle (i : ℕ) : targetZOffsetOf none (-1) i = 0 := by
  simp [targetZOffsetOf, natCast_ne_negOne]

theorem meshStep_idle (i : ℕ) :
    meshStep none (-1) i initialMeshState = initialMeshState := by
  simp [meshStep, initialMeshState, targetScaleOf_idle, targetZOffsetOf_idle,
    natCast_ne_negOne]

theorem meshesAfter_idle (count : ℕ) :
    meshesAfter none (-1) count (List.replicate count initialMeshState) =
      List.replicate count initialMeshState := by
  unfold meshesAfter
  have h1 : ∀ i ∈ List.range count,
      meshStep none (-1) i ((List.replicate count initialMeshState).getD i initialMeshState)
        = initialMeshState := by
    intro i _
    rw [getD_self_replicate]
    exact meshStep_idle i
  rw [List.map_congr_left h1, List.map_const', List.length_range]

/-! ### Wrapped angles and the active-index scan -/

theorem two_pi_pos : (0 : ℝ) < 2 * Real.pi := by positivity

theorem wrapAngle_eq_self {a : ℝ} (h1 : -Real.pi < a) (h2 : a ≤ Real.pi) :
    wrapAngle a = a := by
  have hpos := two_pi_pos
  have key1 : a / (2 * Real.pi) ≤ 1 / 2 := by
    rw [div_le_iff₀ hpos]
    nlinarith
  have key2 : -(1 / 2 : ℝ) < a / (2 * Real.pi) := by
    rw [lt_div_iff₀ hpos]
    nlinarith
  have hz : ⌈a / (2 * Real.pi) - 1 / 2⌉ = 0 := by
    rw [Int.ceil_eq_zero_iff, Set.mem_Ioc]
    exact ⟨by linarith, by linarith⟩
  rw [wrapAngle, hz]
  push_cast
  ring

theorem wrapAngle_eq_sub {a : ℝ} (h1 : Real.pi < a) (h2 : a ≤ 3 * Real.pi) :
    wrapAngle a = a - 2 * Real.pi := by
  have hpos := two_pi_pos
  have key1 : a / (2 * Real.pi) ≤ 3 / 2 := by
    rw [div_le_iff₀ hpos]
    nlinarith
  have key2 : (1 / 2 : ℝ) < a / (2 * Real.pi) := by
    rw [lt_div_iff₀ hpos]
    nlinarith
  have hz : ⌈a / (2 * Real.pi) - 1 / 2⌉ = 1 := by
    rw [Int.ceil_eq_iff]
    push_cast
    exact ⟨by linarith, by linarith⟩
  rw [wrapAngle, hz]
  push_cast
  ring

theorem angleStepOf_pos {count : ℕ} (hc : 1 ≤ count) : 0 < angleStepOf count := by
  rw [angleStepOf]
  have : (0 : ℝ) < (count : ℝ) := by exact_mod_cast hc
  positivity

theorem two_pi_eq_step_mul {count : ℕ} (hc : 1 ≤ count) :
    2 * Real.pi = angleStepOf count * (count : ℝ) := by
  rw [angleStepOf]
  have : (count : ℝ) ≠ 0 := by
    have : (0 : ℝ) < (count : ℝ) := by exact_mod_cast hc
    linarith
  field_simp

theorem activeCond_unique {count : ℕ} (hc : 1 ≤ count) {sc : ℝ} {i j : ℕ}
    (hi : i < count) (hj : j < count)
    (h1 : activeCond count sc i) (h2 : activeCond count sc j) : i = j := by
  have hstep := angleStepOf_pos hc
  set ki : ℤ := ⌈itemAngle count sc i / (2 * Real.pi) - 1 / 2⌉ with hki
  set kj : ℤ := ⌈itemAngle count sc j / (2 * Real.pi) - 1 / 2⌉ with hkj
  have hwi : wrapAngle (itemAngle count sc i)
      = itemAngle count sc i - 2 * Real.pi * (ki : ℝ) := rfl
  have hwj : wrapAngle (itemAngle count sc j)
      = itemAngle count sc j - 2 * Real.pi * (kj : ℝ) := rfl
  have hdiff : |wrapAngle (itemAngle count sc i) - wrapAngle (itemAngle count sc j)|
      < angleStepOf count := by
    have htri := abs_add (wrapAngle (itemAngle count sc i))
      (-(wrapAngle (itemAngle count sc j)))
    rw [abs_neg] at htri
    have ha := h1
    have hb := h2
    rw [activeCond] at ha hb
    calc |wrapAngle (itemAngle count sc i) - wrapAngle (itemAngle count sc j)|
        = |wrapAngle (itemAngle count sc i) + -(wrapAngle (itemAngle count sc j))| := by
          rw [sub_eq_add_neg]
      _ ≤ |wrapAngle (itemAngle count sc i)| + |wrapAngle (itemAngle count sc j)| := htri
      _ < angleStepOf count / 2 + angleStepOf count / 2 := by linarith
      _ = angleStepOf count := by ring
  set m : ℤ := (i : ℤ) - (j : ℤ) - (count : ℤ) * (ki - kj) with hm
  have key : wrapAngle (itemAngle count sc i) - wrapAngle (itemAngle count sc j)
      = angleStepOf count * (m : ℝ) := by
    rw [hwi, hwj, itemAngle, itemAngle, hm, two_pi_eq_step_mul hc]
    push_cast
    ring
  have habs : |(m : ℝ)| < 1 := by
    have h1' : angleStepOf count * |(m : ℝ)| < angleStepOf count * 1 := by
      rw [mul_one, ← abs_of_pos hstep, ← abs_mul, ← key]
      rw [abs_of_pos hstep]
      exact hdiff
    exact lt_of_mul_lt_mul_left h1' (le_of_lt hstep)
  have hm0 : m = 0 := by
    have hcast : |m| < 1 := by
      exact_mod_cast (by rwa [← Int.cast_abs] at habs : ((|m| : ℤ) : ℝ) < 1)
    have := abs_lt.mp hcast
    omega
  have heq : (i : ℤ) - (j : ℤ) = (count : ℤ) * (ki - kj) := by
    rw [hm] at hm0
    linarith
  set d : ℤ := ki - kj with hd
  have hd0 : d = 0 := by
    by_contra hdne
    have h1' : 1 ≤ |d| := Int.one_le_abs hdne
    have hcount : (0 : ℤ) < (count : ℤ) := by exact_mod_cast hc
    have hlow : (count : ℤ) ≤ |(count : ℤ) * d| := by
      rw [abs_mul, abs_of_pos hcount]
      nlinarith
    have hbnd : |(i : ℤ) - (j : ℤ)| < (count : ℤ) := by
      rw [abs_lt]
      constructor <;> omega
    rw [← heq] at hlow
    exact absurd hbnd (not_lt.mpr hlow)
  have : (i : ℤ) = (j : ℤ) := by
    rw [hd0, mul_zero] at heq
    linarith
  exact_mod_cast this

theorem foldl_activeFoldF_of_none (d : Bool) (count : ℕ) (sc : ℝ) :
    ∀ (l : List ℕ) (init : ℕ),
      (∀ j ∈ l, ¬(d = false ∧ activeCond count sc j)) →
      l.foldl (activeFoldF d count sc) init = init
  | [], _, _ => rfl
  | j :: t, init, h => by
    rw [List.foldl_cons]
    have hj : activeFoldF d count sc init j = init := by
      rw [activeFoldF, if_neg (h j (List.mem_cons_self j t))]
    rw [hj]
    exact foldl_activeFoldF_of_none d count sc t init
      (fun x hx => h x (List.mem_cons_of_mem _ hx))

theorem foldl_activeFoldF_select (d : Bool) (count : ℕ) (sc : ℝ) :
    ∀ (l : List ℕ) (init istar : ℕ), istar ∈ l →
      (d = false ∧ activeCond count sc istar) →
      (∀ j ∈ l, (d = false ∧ activeCond count sc j) → j = istar) →
      l.foldl (activeFoldF d count sc) init = istar
  | [], _, _, hmem, _, _ => absurd hmem (List.not_mem_nil _)
  | j :: t, init, istar, hmem, hcond, huniq => by
    rw [List.foldl_cons]
    by_cases hj : d = false ∧ activeCond count sc j
    · have hji : j = istar := huniq j (List.mem_cons_self j t) hj
      subst hji
      have hstep : activeFoldF d count sc init j = j := by
        rw [activeFoldF, if_pos hj]
      rw [hstep]
      by_cases hmem' : j ∈ t
      · exact foldl_activeFoldF_select d count sc t j j hmem' hcond
          (fun x hx h => huniq x (List.mem_cons_of_mem _ hx) h)
      · refine foldl_activeFoldF_of_none d count sc t j (fun x hx hcx => ?_)
        have := huniq x (List.mem_cons_of_mem _ hx) hcx
        subst this
        exact hmem' hx
    · have hstep : activeFoldF d count sc init j = init := by
        rw [activeFoldF, if_neg hj]
      rw [hstep]
      have hmem' : istar ∈ t := by
        rcases List.mem_cons.mp hmem with h | h
        · subst h
          exact absurd hcond hj
        · exact h
      exact foldl_activeFoldF_select d count sc t init istar hmem' hcond
        (fun x hx => huniq x (List.mem_cons_of_mem _ hx))

theorem activeIndexAfter_eq {count : ℕ} (hc : 1 ≤ count) {sc : ℝ} {istar : ℕ}
    (hi : istar < count) (hcond : activeCond count sc istar) (init : ℕ) :
    activeIndexAfter false count sc init = istar :=
  foldl_activeFoldF_select false count sc (List.range count) init istar
    (List.mem_range.mpr hi) ⟨rfl, hcond⟩
    (fun j hj h => activeCond_unique hc (List.mem_range.mp hj) hi h.2 hcond)

theorem activeIndexAfter_eq_init {d : Bool} {count : ℕ} {sc : ℝ} (init : ℕ)
    (h : ∀ j, j < count → ¬ activeCond count sc j) :
    activeIndexAfter d count sc init = init :=
  foldl_activeFoldF_of_none d count sc (List.range count) init
    (fun j hj hcj => h j (List.mem_range.mp hj) hcj.2)

theorem activeIndexAfter_detailOpen {count : ℕ} {sc : ℝ} (init : ℕ) :
    activeIndexAfter true count sc init = init :=
  foldl_activeFoldF_of_none true count sc (List.range count) init
    (fun _ _ hcj => by simpa using hcj.1)

theorem activeIndexAfter_lt {d : Bool} {count : ℕ} {sc : ℝ} {init : ℕ}
    (hinit : init < count) : activeIndexAfter d count sc init < count := by
  have hgen : ∀ (l : List ℕ) (ini : ℕ), (∀ j ∈ l, j < count) → ini < count →
      l.foldl (activeFoldF d count sc) ini < count := by
    intro l
    induction l with
    | nil => exact fun ini _ h => h
    | cons j t ih =>
      intro ini hmem hini
      rw [List.foldl_cons]
      refine ih _ (fun x hx => hmem x (List.mem_cons_of_mem _ hx)) ?_
      rw [activeFoldF]
      split
      · exact hmem j (List.mem_cons_self j t)
      · exact hini
  exact hgen (List.range count) init (fun j hj => List.mem_range.mp hj) hinit

/-! ### Exponential smoothing -/

theorem lerpStep_sub (damping t v : ℝ) :
    lerpStep damping t v - t = (1 - damping) * (v - t) := by
  rw [lerpStep]; ring

theorem lerpIter_sub (damping t v : ℝ) :
    ∀ n : ℕ, lerpIter damping t v n - t = (1 - damping) ^ n * (v - t)
  | 0 => by rw [lerpIter]; ring
  | n + 1 => by
    have h1 : lerpIter damping t v (n + 1) = lerpStep damping t (lerpIter damping t v n) := rfl
    rw [h1, lerpStep_sub, lerpIter_sub damping t v n]
    ring

theorem lerpIter_abs_le {damping : ℝ} (h0 : 0 < damping) (h1 : damping < 1)
    (t v : ℝ) (n : ℕ) :
    |lerpIter damping t v (n + 1) - t| ≤ |lerpIter damping t v n - t| := by
  rw [lerpIter_sub, lerpIter_sub, pow_succ]
  have ha : |1 - damping| ≤ 1 := by rw [abs_le]; constructor <;> linarith
  rw [abs_mul ((1 - damping) ^ n * (1 - damping)) (v - t),
    abs_mul ((1 - damping) ^ n) (1 - damping),
    abs_mul ((1 - damping) ^ n) (v - t)]
  have h2 := mul_le_mul_of_nonneg_left ha (abs_nonneg ((1 - damping) ^ n))
  have h3 := mul_le_mul_of_nonneg_right h2 (abs_nonneg (v - t))
  calc |(1 - damping) ^ n| * |1 - damping| * |v - t|
      ≤ |(1 - damping) ^ n| * 1 * |v - t| := h3
    _ = |(1 - damping) ^ n| * |v - t| := by ring

theorem lerpIter_no_overshoot {damping : ℝ} (h0 : 0 < damping) (h1 : damping < 1)
    (t v : ℝ) (n : ℕ) : 0 ≤ (lerpIter damping t v n - t) * (v - t) := by
  rw [lerpIter_sub]
  have hd : (0 : ℝ) ≤ (1 - damping) ^ n := pow_nonneg (by linarith) n
  nlinarith [sq_nonneg (v - t)]

theorem lerpIter_converges {damping : ℝ} (h0 : 0 < damping) (h1 : damping < 1)
    (t v : ℝ) {e : ℝ} (he : 0 < e) :
    ∃ N : ℕ, ∀ n : ℕ, N ≤ n → |lerpIter damping t v n - t| < e := by
  rcases eq_or_ne v t with hvt | hvt
  · refine ⟨0, fun n _ => ?_⟩
    rw [lerpIter_sub, hvt]
    simpa using he
  · have hD : 0 < |v - t| := abs_pos.mpr (sub_ne_zero.mpr hvt)
    obtain ⟨N, hN⟩ := exists_pow_lt_of_lt_one (div_pos he hD)
      (by linarith : 1 - damping < 1)
    refine ⟨N, fun n hn => ?_⟩
    rw [lerpIter_sub, abs_mul]
    have hpowle : (1 - damping) ^ n ≤ (1 - damping) ^ N :=
      pow_le_pow_of_le_one (by linarith) (by linarith) hn
    have hpownn : (0 : ℝ) ≤ (1 - damping) ^ n := pow_nonneg (by linarith) n
    have habs : |(1 - damping) ^ n| = (1 - damping) ^ n := abs_of_nonneg hpownn
    rw [habs]
    calc (1 - damping) ^ n * |v - t| ≤ (1 - damping) ^ N * |v - t| := by nlinarith
      _ < (e / |v - t|) * |v - t| := by nlinarith
      _ = e := by field_simp

/-! ### Bounds on the eased speed at `x = 0.9` -/

theorem rpow_pow_five : (((5 / 7 : ℝ)) ^ (0.6 : ℝ)) ^ (5 : ℕ) = (5 / 7 : ℝ) ^ (3 : ℕ) := by
  have hb : (0 : ℝ) ≤ 5 / 7 := by norm_num
  rw [← Real.rpow_natCast ((5 / 7 : ℝ) ^ (0.6 : ℝ)) 5, ← Real.rpow_mul hb]
  rw [show ((0.6 : ℝ) * ((5 : ℕ) : ℝ)) = ((3 : ℕ) : ℝ) by norm_num]
  rw [Real.rpow_natCast]

theorem rpow_sixPow_bounds :
    (0.815 : ℝ) < (5 / 7 : ℝ) ^ (0.6 : ℝ) ∧ (5 / 7 : ℝ) ^ (0.6 : ℝ) < 0.82 := by
  have ha : (0 : ℝ) ≤ (5 / 7 : ℝ) ^ (0.6 : ℝ) :=
    Real.rpow_nonneg (by norm_num) _
  constructor
  · refine lt_of_pow_lt_pow_left₀ 5 ha ?_
    rw [rpow_pow_five]
    norm_num
  · refine lt_of_pow_lt_pow_left₀ 5 (by norm_num) ?_
    rw [rpow_pow_five]
    norm_num

/-! ### Placement lookup -/

theorem placementsAfter_getElem {count : ℕ} (sc : ℝ) (ms : List MeshState)
    {i : ℕ} (hi : i < count) :
    (placementsAfter count sc ms)[i]? =
      some (placementOf count sc i (ms.getD i initialMeshState)) := by
  rw [placementsAfter, List.getElem?_map, List.getElem?_range hi]
  rfl

/-! ### Traces of frames and the fired-selection list -/

theorem firedTrace_nil (count : ℕ) (st : GalleryState) (ms : List MeshState) :
    firedTrace count [] st ms = [] := rfl

theorem firedTrace_cons (count : ℕ) (inp : FrameInput) (rest : List FrameInput)
    (st : GalleryState) (ms : List MeshState) :
    firedTrace count (inp :: rest) st ms =
      (frameUpdate count inp st ms).fired.toList ++
        firedTrace count rest (frameUpdate count inp st ms).state
          (frameUpdate count inp st ms).meshes := rfl

theorem frame_nonactionable (count : ℕ) (inp : FrameInput) (st : GalleryState)
    (ms : List MeshState) (h : ¬ actionable inp.cursor) :
    (frameUpdate count inp st ms).fired = none ∧
    (frameUpdate count inp st ms).state.isPinching = false ∧
    (frameUpdate count inp st ms).state.lastPinchTime = st.lastPinchTime := by
  rw [frameUpdate_fired, frameUpdate_isPinching, frameUpdate_lastPinchTime,
    pinchStep_idle h]
  exact ⟨rfl, rfl, rfl⟩

theorem frame_fires (count : ℕ) (inp : FrameInput) (st : GalleryState)
    (ms : List MeshState) (ha : actionable inp.cursor)
    (hw : st.isPinching = false) (hcool : st.lastPinchTime + 1000 < inp.now) :
    (frameUpdate count inp st ms).fired =
      some (if (frameUpdate count inp st ms).hoveredIndex ≠ -1
        then (frameUpdate count inp st ms).hoveredIndex else (st.activeIndex : ℤ)) ∧
    (frameUpdate count inp st ms).state.lastPinchTime = inp.now ∧
    (frameUpdate count inp st ms).state.isPinching = true := by
  rw [frameUpdate_fired, frameUpdate_lastPinchTime, frameUpdate_isPinching,
    frameUpdate_hoveredIndex, pinchStep_fires ha hw hcool]
  exact ⟨rfl, rfl, rfl⟩

theorem frame_cooldown (count : ℕ) (inp : FrameInput) (st : GalleryState)
    (ms : List MeshState) (ha : actionable inp.cursor)
    (h : ¬(st.isPinching = false ∧ st.lastPinchTime + 1000 < inp.now)) :
    (frameUpdate count inp st ms).fired = none ∧
    (frameUpdate count inp st ms).state.lastPinchTime = st.lastPinchTime ∧
    (frameUpdate count inp st ms).state.isPinching = true := by
  rw [frameUpdate_fired, frameUpdate_lastPinchTime, frameUpdate_isPinching,
    pinchStep_held ha h]
  exact ⟨rfl, rfl, rfl⟩

theorem firedTrace_skip (count : ℕ) :
    ∀ (l rest : List FrameInput) (st : GalleryState) (ms : List MeshState),
      (∀ inp ∈ l, ¬ actionable inp.cursor) →
      ∃ st' ms', firedTrace count (l ++ rest) st ms = firedTrace count rest st' ms' ∧
        st'.lastPinchTime = st.lastPinchTime ∧
        (l = [] → st' = st ∧ ms' = ms) ∧ (l ≠ [] → st'.isPinching = false)
  | [], rest, st, ms, _ =>
    ⟨st, ms, rfl, rfl, fun _ => ⟨rfl, rfl⟩, fun h => absurd rfl h⟩
  | inp :: t, rest, st, ms, h => by
    have hna : ¬ actionable inp.cursor := h inp (List.mem_cons_self _ _)
    obtain ⟨hf, hp, hl⟩ := frame_nonactionable count inp st ms hna
    obtain ⟨st', ms', heq, hlast, hnil, hne⟩ :=
      firedTrace_skip count t rest (frameUpdate count inp st ms).state
        (frameUpdate count inp st ms).meshes
        (fun x hx => h x (List.mem_cons_of_mem _ hx))
    refine ⟨st', ms', ?_, ?_, ?_, ?_⟩
    · rw [List.cons_append, firedTrace_cons, hf]
      simpa using heq
    · rw [hlast, hl]
    · intro hcontra
      exact absurd hcontra (List.cons_ne_nil _ _)
    · intro _
      by_cases ht : t = []
      · obtain ⟨hst, _⟩ := hnil ht
        rw [hst, hp]
      · exact hne ht

/-! ### Small helpers for concrete evaluations -/

theorem activeCond_of_angle_zero {count : ℕ} (hc : 1 ≤ count) {sc : ℝ} {i : ℕ}
    (h : itemAngle count sc i = 0) : activeCond count sc i := by
  rw [activeCond, h,
    wrapAngle_eq_self (neg_lt_zero.mpr Real.pi_pos) Real.pi_pos.le, abs_zero]
  exact half_pos (angleStepOf_pos hc)

theorem not_activeCond_of_wrap_eq {count : ℕ} {sc w : ℝ} {i : ℕ}
    (hw : wrapAngle (itemAngle count sc i) = w)
    (hbig : angleStepOf count / 2 ≤ |w|) : ¬ activeCond count sc i := by
  rw [activeCond, hw]
  exact not_lt.mpr hbig

theorem targetSpeed_at_one :
    targetSpeedOf false ⟨1, 0.5, false, true⟩ = 0.2 := by
  rw [targetSpeedOf_right rfl (by norm_num)]
  dsimp only
  rw [show ((1 : ℝ) - 0.65) / 0.35 = 1 by norm_num, Real.one_rpow]
  norm_num

theorem fired_eval_concrete :
    (frameUpdate 5 ⟨2000, ⟨0.5, 0.5, true, true⟩, none, none⟩
      ⟨0, 0, 3, false, 0⟩ (List.replicate 5 initialMeshState)).fired = some 3 := by
  rw [frameUpdate_fired]
  dsimp only
  have ha : actionable (⟨0.5, 0.5, true, true⟩ : Cursor) :=
    ⟨rfl, ⟨by norm_num, by norm_num, by norm_num, by norm_num⟩, rfl⟩
  rw [pinchStep_fires ha rfl (by norm_num), hoveredIndexOf_pinching _ _ _ rfl]
  norm_num

/-! ### Claim C2 -/

/-- C2 counterexample: at a visible cursor with `x = 0.9` and no detail view
open, the computed `targetSpeed` is `0.2 * ((0.25/0.35) ^ 0.6)`, which lies
strictly between 0.163 and 0.164 — it is not approximately 0.138 as the claim
states (the spec's numeric example is off; the formula itself is right). -/
theorem C2_counterexample :
    (0.163 : ℝ) < targetSpeedOf false ⟨0.9, 0.5, false, true⟩ ∧
    targetSpeedOf false ⟨0.9, 0.5, false, true⟩ < 0.164 ∧
    ¬ (|targetSpeedOf false ⟨0.9, 0.5, false, true⟩ - 0.138| ≤ 0.02) := by
  have heq : targetSpeedOf false ⟨0.9, 0.5, false, true⟩
      = (5 / 7 : ℝ) ^ (0.6 : ℝ) * 0.2 := by
    rw [targetSpeedOf_right rfl (by norm_num)]
    dsimp only
    rw [show ((0.9 : ℝ) - 0.65) / 0.35 = 5 / 7 by norm_num]
  obtain ⟨hlo, hhi⟩ := rpow_sixPow_bounds
  rw [heq]
  refine ⟨by nlinarith, by nlinarith, fun habs => ?_⟩
  rw [abs_le] at habs
  nlinarith [habs.2]

/-- C2 (amended): with the cursor visible and no detail view open,
`targetSpeed` is `0` exactly on the closed dead zone `|x - 0.5| ≤ 0.15` and
otherwise equals `sign(x - 0.5) * (((|x - 0.5| - 0.15) / 0.35) ^ 0.6 * 0.2)`;
at `x = 0.9` its value is `0.2 * (5/7) ^ 0.6` which lies in `(0.163, 0.164)`
(approximately 0.1634, not 0.138); and every visible-no-detail frame adds
`targetSpeed` to `scrollTarget` exactly once. -/
theorem C2_targetSpeed (c : Cursor) (hv : c.isVisible = true) :
    (|c.x - 0.5| ≤ 0.15 → targetSpeedOf false c = 0) ∧
    (0.15 < |c.x - 0.5| →
      targetSpeedOf false c =
        (if 0.5 ≤ c.x then 1 else -1) *
          (((|c.x - 0.5| - 0.15) / 0.35) ^ (0.6 : ℝ) * 0.2)) ∧
    ((0.163 : ℝ) < targetSpeedOf false ⟨0.9, 0.5, false, true⟩ ∧
      targetSpeedOf false ⟨0.9, 0.5, false, true⟩ < 0.164) ∧
    (∀ (count : ℕ) (inp : FrameInput) (st : GalleryState) (ms : List MeshState),
      inp.selectedIndex = none → inp.cursor.isVisible = true →
      (frameUpdate count inp st ms).state.scrollTarget =
        st.scrollTarget + targetSpeedOf false inp.cursor) := by
  refine ⟨?_, ?_, ?_, ?_⟩
  · intro h
    rw [abs_le] at h
    exact targetSpeedOf_dead hv (by linarith [h.1]) (by linarith [h.2])
  · intro h
    rcases le_or_lt 0.5 c.x with hx | hx
    · rw [abs_of_nonneg (by linarith)] at h ⊢
      rw [targetSpeedOf_right hv (by linarith), if_pos hx, one_mul,
        show c.x - 0.5 - 0.15 = c.x - 0.65 by ring]
    · rw [abs_of_neg (by linarith)] at h ⊢
      rw [targetSpeedOf_left hv (by linarith), if_neg (not_le.mpr hx),
        show -(c.x - 0.5) - 0.15 = 0.35 - c.x by ring]
      ring
  · have heq : targetSpeedOf false ⟨0.9, 0.5, false, true⟩
        = (5 / 7 : ℝ) ^ (0.6 : ℝ) * 0.2 := by
      rw [targetSpeedOf_right rfl (by norm_num)]
      dsimp only
      rw [show ((0.9 : ℝ) - 0.65) / 0.35 = 5 / 7 by norm_num]
    obtain ⟨hlo, hhi⟩ := rpow_sixPow_bounds
    rw [heq]
    exact ⟨by nlinarith, by nlinarith⟩
  · intro count inp st ms hd hv'
    rw [frameUpdate_scrollTarget, scrollTargetAfter_scrolling hd hv']

/-- C2 witness: the amended theorem applied at the visible cursor
`(0.9, 0.5)`, which lies to the right of the dead zone. -/
theorem C2_targetSpeed_witness :
    targetSpeedOf false ⟨0.9, 0.5, false, true⟩ =
      (if (0.5 : ℝ) ≤ 0.9 then 1 else -1) *
        (((|(0.9 : ℝ) - 0.5| - 0.15) / 0.35) ^ (0.6 : ℝ) * 0.2) :=
  (C2_targetSpeed ⟨0.9, 0.5, false, true⟩ rfl).2.1
    (by dsimp only; rw [abs_of_pos (by norm_num : (0 : ℝ) < (0.9 : ℝ) - 0.5)]; norm_num)

/-! ### Claim C3 -/

/-- C3: on every frame in which a selection event fires with index `k`, `k`
is the frame's `hoveredIndex` when that is nonnegative, and otherwise the
active (front-most) index held in the gallery state when the pinch was
arbitrated. -/
theorem C3_fired_target (count : ℕ) (inp : FrameInput) (st : GalleryState)
    (ms : List MeshState) (k : ℤ)
    (h : (frameUpdate count inp st ms).fired = some k) :
    (0 ≤ (frameUpdate count inp st ms).hoveredIndex →
      k = (frameUpdate count inp st ms).hoveredIndex) ∧
    ((frameUpdate count inp st ms).hoveredIndex = -1 →
      k = (st.activeIndex : ℤ)) := by
  rw [frameUpdate_fired] at h
  obtain ⟨_, _, _, hk⟩ := pinchStep_fired_shape h
  rw [frameUpdate_hoveredIndex]
  constructor
  · intro hge
    rw [hk, if_pos (by omega)]
  · intro heq
    rw [hk, heq, if_neg (by norm_num)]

/-- C3 witness: a qualifying pinch at `(0.5, 0.5)` with no raycast hit and
`activeIndex = 3` fires the callback with index `3`. -/
theorem C3_fired_target_witness :
    (frameUpdate 5 ⟨2000, ⟨0.5, 0.5, true, true⟩, none, none⟩
      ⟨0, 0, 3, false, 0⟩ (List.replicate 5 initialMeshState)).fired = some 3 ∧
    ((frameUpdate 5 ⟨2000, ⟨0.5, 0.5, true, true⟩, none, none⟩
        ⟨0, 0, 3, false, 0⟩ (List.replicate 5 initialMeshState)).hoveredIndex = -1 →
      (3 : ℤ) = ((⟨0, 0, 3, false, 0⟩ : GalleryState).activeIndex : ℤ)) :=
  ⟨fired_eval_concrete,
    (C3_fired_target 5 ⟨2000, ⟨0.5, 0.5, true, true⟩, none, none⟩
      ⟨0, 0, 3, false, 0⟩ (List.replicate 5 initialMeshState) 3 fired_eval_concrete).2⟩

/-! ### Claim C4 -/

/-- C4 (implicit invariant): whenever a selection fires, the frame's
`hoveredIndex` is `-1` — hover is only computed when the cursor is not
pinching while firing requires it to be pinching — so the callback always
receives the stored active index and the `hoveredIndex` branch is dead. -/
theorem C4_fired_hover_dead (count : ℕ) (inp : FrameInput) (st : GalleryState)
    (ms : List MeshState) (h : (frameUpdate count inp st ms).fired ≠ none) :
    (frameUpdate count inp st ms).hoveredIndex = -1 ∧
    (frameUpdate count inp st ms).fired = some (st.activeIndex : ℤ) := by
  rw [frameUpdate_fired] at h ⊢
  rw [frameUpdate_hoveredIndex]
  rcases hopt : (pinchStep inp.now inp.cursor
      (hoveredIndexOf inp.cursor inp.selectedIndex.isSome inp.rayHit)
      st.activeIndex st.isPinching st.lastPinchTime).2.2 with _ | k
  · rw [hopt] at h
    exact absurd rfl h
  · obtain ⟨ha, _, _, hk⟩ := pinchStep_fired_shape hopt
    have hhov : hoveredIndexOf inp.cursor inp.selectedIndex.isSome inp.rayHit = -1 :=
      hoveredIndexOf_pinching _ _ _ ha.2.2
    refine ⟨hhov, ?_⟩
    rw [hk, hhov, if_neg (by norm_num)]

/-- C4 witness: the invariant applied to a concrete firing frame. -/
theorem C4_fired_hover_dead_witness :
    (frameUpdate 5 ⟨2000, ⟨0.5, 0.5, true, true⟩, none, none⟩
      ⟨0, 0, 3, false, 0⟩ (List.replicate 5 initialMeshState)).hoveredIndex = -1 ∧
    (frameUpdate 5 ⟨2000, ⟨0.5, 0.5, true, true⟩, none, none⟩
      ⟨0, 0, 3, false, 0⟩ (List.replicate 5 initialMeshState)).fired =
        some (((⟨0, 0, 3, false, 0⟩ : GalleryState).activeIndex : ℤ)) :=
  C4_fired_hover_dead 5 ⟨2000, ⟨0.5, 0.5, true, true⟩, none, none⟩
    ⟨0, 0, 3, false, 0⟩ (List.replicate 5 initialMeshState)
    (by rw [fired_eval_concrete]; exact Option.some_ne_none _)

/-! ### Claim C7 -/

/-- C7: for every item `i < count`, the placement written this frame is
`placementOf` evaluated at the frame's new scroll position and the item's
updated animation state; `placementOf` itself puts the item at
`x = R sin(angle)`, `z = R cos(angle) - R + zOffset`, facing rotation `angle`
with `angle = i * (2*pi/count) - scrollCurrent` and `R = 6`; and an item at
angle `0` sits at depth exactly its `zOffset` (the front of the ring). -/
theorem C7_layout (count : ℕ) (inp : FrameInput) (st : GalleryState)
    (ms : List MeshState) (i : ℕ) (hi : i < count) :
    (frameUpdate count inp st ms).placements[i]? =
      some (placementOf count (frameUpdate count inp st ms).state.scrollCurrent i
        ((frameUpdate count inp st ms).meshes.getD i initialMeshState)) ∧
    (∀ (sc : ℝ) (m : MeshState),
      placementOf count sc i m =
        { posX := Real.sin ((i : ℝ) * (2 * Real.pi / (count : ℝ)) - sc) * 6,
          posZ := Real.cos ((i : ℝ) * (2 * Real.pi / (count : ℝ)) - sc) * 6 - 6 + m.zOffset,
          rotY := (i : ℝ) * (2 * Real.pi / (count : ℝ)) - sc,
          scaleOut := m.scale }) ∧
    (∀ (sc : ℝ) (m : MeshState), itemAngle count sc i = 0 →
      (placementOf count sc i m).posZ = m.zOffset) := by
  refine ⟨?_, ?_, ?_⟩
  · rw [frameUpdate_placements, frameUpdate_scrollCurrent]
    exact placementsAfter_getElem _ _ hi
  · intro sc m
    rw [placementOf, itemAngle, angleStepOf, radius]
  · intro sc m h
    rw [placementOf, h]
    dsimp only
    rw [Real.cos_zero, radius]
    ring

/-- C7 witness: the layout theorem applied to one item of a concrete
two-item frame. -/
theorem C7_layout_witness :
    (frameUpdate 2 ⟨0, ⟨0.5, 0.5, false, false⟩, none, none⟩ initialGalleryState
      (List.replicate 2 initialMeshState)).placements[0]? =
      some (placementOf 2
        (frameUpdate 2 ⟨0, ⟨0.5, 0.5, false, false⟩, none, none⟩ initialGalleryState
          (List.replicate 2 initialMeshState)).state.scrollCurrent 0
        ((frameUpdate 2 ⟨0, ⟨0.5, 0.5, false, false⟩, none, none⟩ initialGalleryState
          (List.replicate 2 initialMeshState)).meshes.getD 0 initialMeshState)) ∧
    (placementOf 2 0 0 initialMeshState).posZ = initialMeshState.zOffset :=
  ⟨(C7_layout 2 ⟨0, ⟨0.5, 0.5, false, false⟩, none, none⟩ initialGalleryState
      (List.replicate 2 initialMeshState) 0 (by norm_num)).1,
    (C7_layout 2 ⟨0, ⟨0.5, 0.5, false, false⟩, none, none⟩ initialGalleryState
      (List.replicate 2 initialMeshState) 0 (by norm_num)).2.2 0 initialMeshState
      (by rw [itemAngle]; norm_num)⟩

/-! ### Claim C8 -/

/-- C8: one smoothing step `v += (t - v) * damping` with `damping ∈ (0, 1)`
scales the error `v - t` by `1 - damping` without changing its sign; over
repeated frames with a constant target the absolute error is monotonically
nonincreasing, the value never crosses the target, and it eventually comes
within any positive tolerance; the frame update applies exactly this step
with damping `0.1` to `scrollCurrent` and to each item's scale and z-offset. -/
theorem C8_smoothing {damping : ℝ} (h0 : 0 < damping) (h1 : damping < 1)
    (t v : ℝ) :
    (∀ w : ℝ, lerpStep damping t w - t = (1 - damping) * (w - t)) ∧
    (∀ n : ℕ, lerpIter damping t v n - t = (1 - damping) ^ n * (v - t)) ∧
    (∀ n : ℕ, |lerpIter damping t v (n + 1) - t| ≤ |lerpIter damping t v n - t|) ∧
    (∀ n : ℕ, 0 ≤ (lerpIter damping t v n - t) * (v - t)) ∧
    (∀ e : ℝ, 0 < e → ∃ N : ℕ, ∀ n : ℕ, N ≤ n → |lerpIter damping t v n - t| < e) ∧
    (∀ (inp : FrameInput) (st : GalleryState),
      scrollCurrentAfter inp st = lerpStep 0.1 (scrollTargetAfter inp st) st.scrollCurrent) ∧
    (∀ (sel : Option ℕ) (hov : ℤ) (i : ℕ) (m : MeshState),
      (meshStep sel hov i m).scale = lerpStep 0.1 (targetScaleOf sel hov i) m.scale ∧
      (meshStep sel hov i m).zOffset = lerpStep 0.1 (targetZOffsetOf sel hov i) m.zOffset) :=
  ⟨fun w => lerpStep_sub damping t w,
    lerpIter_sub damping t v,
    lerpIter_abs_le h0 h1 t v,
    lerpIter_no_overshoot h0 h1 t v,
    fun e he => lerpIter_converges h0 h1 t v he,
    fun _ _ => rfl,
    fun _ _ _ _ => ⟨rfl, rfl⟩⟩

/-- C8 witness: the smoothing theorem at the scroll damping factor `0.1`
with target `1` and initial value `0`. -/
theorem C8_smoothing_witness :
    (∀ w : ℝ, lerpStep 0.1 1 w - 1 = (1 - 0.1) * (w - 1)) ∧
    (∀ n : ℕ, lerpIter 0.1 1 0 n - 1 = (1 - 0.1) ^ n * ((0 : ℝ) - 1)) ∧
    (∀ n : ℕ, |lerpIter 0.1 1 0 (n + 1) - 1| ≤ |lerpIter 0.1 1 0 n - 1|) ∧
    (∀ n : ℕ, 0 ≤ (lerpIter 0.1 1 0 n - 1) * ((0 : ℝ) - 1)) ∧
    (∀ e : ℝ, 0 < e → ∃ N : ℕ, ∀ n : ℕ, N ≤ n → |lerpIter 0.1 1 0 n - 1| < e) ∧
    (∀ (inp : FrameInput) (st : GalleryState),
      scrollCurrentAfter inp st = lerpStep 0.1 (scrollTargetAfter inp st) st.scrollCurrent) ∧
    (∀ (sel : Option ℕ) (hov : ℤ) (i : ℕ) (m : MeshState),
      (meshStep sel hov i m).scale = lerpStep 0.1 (targetScaleOf sel hov i) m.scale ∧
      (meshStep sel hov i m).zOffset = lerpStep 0.1 (targetZOffsetOf sel hov i) m.zOffset) :=
  C8_smoothing (by norm_num) (by norm_num) 1 0

/-! ### Claim C9 -/

/-- C9: with an empty item list the per-frame update is total and a no-op
for placement and hit-testing: no placements, no mesh states, `hoveredIndex`
stays `-1` (the raycast over an empty mesh list returns no hit, which is the
`rayHit = none` hypothesis), the active index is untouched, and the scroll
smoothing still runs.  In the Lean embedding `angleStepOf 0` is never
consumed because the item loop is empty, mirroring the JavaScript where the
`Infinity` produced by `2*pi/0` is never read. -/
theorem C9_empty_noop (inp : FrameInput) (st : GalleryState)
    (ms : List MeshState) (hray : inp.rayHit = none) :
    (frameUpdate 0 inp st ms).placements = [] ∧
    (frameUpdate 0 inp st ms).meshes = [] ∧
    (frameUpdate 0 inp st ms).hoveredIndex = -1 ∧
    (frameUpdate 0 inp st ms).state.activeIndex = st.activeIndex ∧
    (frameUpdate 0 inp st ms).state.scrollCurrent = scrollCurrentAfter inp st := by
  refine ⟨?_, ?_, ?_, ?_, rfl⟩
  · rw [frameUpdate_placements, placementsAfter]
    simp
  · rw [frameUpdate_meshes, meshesAfter]
    simp
  · rw [frameUpdate_hoveredIndex, hray]
    exact hoveredIndexOf_rayNone _ _
  · rw [frameUpdate_activeIndex, activeIndexAfter]
    simp

/-- C9 witness: the empty-gallery theorem at a concrete visible cursor. -/
theorem C9_empty_noop_witness :
    (frameUpdate 0 ⟨0, ⟨0.5, 0.5, false, true⟩, none, none⟩ initialGalleryState []).placements = [] ∧
    (frameUpdate 0 ⟨0, ⟨0.5, 0.5, false, true⟩, none, none⟩ initialGalleryState []).meshes = [] ∧
    (frameUpdate 0 ⟨0, ⟨0.5, 0.5, false, true⟩, none, none⟩ initialGalleryState []).hoveredIndex = -1 ∧
    (frameUpdate 0 ⟨0, ⟨0.5, 0.5, false, true⟩, none, none⟩ initialGalleryState []).state.activeIndex
      = initialGalleryState.activeIndex ∧
    (frameUpdate 0 ⟨0, ⟨0.5, 0.5, false, true⟩, none, none⟩ initialGalleryState []).state.scrollCurrent
      = scrollCurrentAfter ⟨0, ⟨0.5, 0.5, false, true⟩, none, none⟩ initialGalleryState :=
  C9_empty_noop ⟨0, ⟨0.5, 0.5, false, true⟩, none, none⟩ initialGalleryState [] rfl

/-! ### Claim C10 -/

/-- C10 counterexample: a close request that fires at time 1000 is followed by
a qualifying downward move (delta 0.04 > 0.03) exactly 800 ms later, at time
1800; the claim's "at least 800 ms" says it fires again, but the code's
strict comparison `now - last > 800` suppresses it. -/
theorem C10_counterexample :
    (swipeStep 1000 0.54 true true ⟨0.5, 0⟩).2 = true ∧
    (swipeStep 1800 0.58 true true (swipeStep 1000 0.54 true true ⟨0.5, 0⟩).1).2 = false := by
  constructor
  · norm_num [swipeStep]
  · norm_num [swipeStep]

/-- C10 (amended): the swipe-to-close detector fires exactly when the detail
view is open, the cursor is visible, `currentY - previousY > 0.03` and
strictly more than 800 ms have elapsed since the last fire (a delta arriving
at exactly 800 ms is suppressed); the stored previous Y is updated to the
current Y on every run, firing or not; hence a downward jump held at the
same position over later frames fires at most once. -/
theorem C10_swipe (now : ℕ) (y : ℝ) (vis dOpen : Bool) (s : SwipeState) :
    ((swipeStep now y vis dOpen s).2 = true ↔
      (dOpen = true ∧ vis = true ∧ y - s.lastY > 0.03 ∧ s.cooldown + 800 < now)) ∧
    (swipeStep now y vis dOpen s).1.lastY = y ∧
    (∀ (now2 : ℕ) (vis2 dOpen2 : Bool) (c : ℕ),
      (swipeStep now2 y vis2 dOpen2 ⟨y, c⟩).2 = false) := by
  refine ⟨?_, ?_, ?_⟩
  · rw [swipeStep]
    split_ifs with h1 h2
    · exact iff_of_true rfl ⟨h1.1, h1.2, h2.1, h2.2⟩
    · constructor
      · intro h
        exact absurd h (by simp)
      · intro h
        exact absurd ⟨h.2.2.1, h.2.2.2⟩ h2
    · constructor
      · intro h
        exact absurd h (by simp)
      · intro h
        exact absurd ⟨h.1, h.2.1⟩ h1
  · rw [swipeStep]
    split_ifs <;> rfl
  · intro now2 vis2 dOpen2 c
    rw [swipeStep]
    split_ifs with h1 h2
    · exfalso
      have := h2.1
      dsimp only at this
      linarith
    · rfl
    · rfl

/-! ### Claim C1 -/

/-- C1 counterexample: two pinch rising edges exactly 1000 ms apart (times
2000 and 3000, with a released frame in between) produce exactly one fired
selection, because the code's cooldown test is the strict
`now - lastPinchTime > 1000`; the claim's "at least 1000 ms produce two
fired selections" fails at this separation. -/
theorem C1_counterexample :
    (firedTrace 1
      [⟨2000, ⟨0.5, 0.5, true, true⟩, none, none⟩,
       ⟨2500, ⟨0.5, 0.5, false, true⟩, none, none⟩,
       ⟨3000, ⟨0.5, 0.5, true, true⟩, none, none⟩]
      initialGalleryState [initialMeshState]).length = 1 := by
  have ha : actionable (⟨0.5, 0.5, true, true⟩ : Cursor) :=
    ⟨rfl, ⟨by norm_num, by norm_num, by norm_num, by norm_num⟩, rfl⟩
  have hna : ¬ actionable (⟨0.5, 0.5, false, true⟩ : Cursor) := by
    intro h
    simpa using h.2.2
  obtain ⟨hf1, hl1, hp1⟩ := frame_fires 1 ⟨2000, ⟨0.5, 0.5, true, true⟩, none, none⟩
    initialGalleryState [initialMeshState] ha rfl (by norm_num [initialGalleryState])
  obtain ⟨hf2, hp2, hl2⟩ := frame_nonactionable 1 ⟨2500, ⟨0.5, 0.5, false, true⟩, none, none⟩
    (frameUpdate 1 ⟨2000, ⟨0.5, 0.5, true, true⟩, none, none⟩ initialGalleryState
      [initialMeshState]).state
    (frameUpdate 1 ⟨2000, ⟨0.5, 0.5, true, true⟩, none, none⟩ initialGalleryState
      [initialMeshState]).meshes hna
  obtain ⟨hf3, _, _⟩ := frame_cooldown 1 ⟨3000, ⟨0.5, 0.5, true, true⟩, none, none⟩
    (frameUpdate 1 ⟨2500, ⟨0.5, 0.5, false, true⟩, none, none⟩ _ _).state
    (frameUpdate 1 ⟨2500, ⟨0.5, 0.5, false, true⟩, none, none⟩ _ _).meshes ha
    (by
      rw [hl2, hl1]
      intro hcc
      exact absurd hcc.2 (by norm_num))
  rw [firedTrace_cons, hf1, firedTrace_cons, hf2, firedTrace_cons, hf3, firedTrace_nil]
  simp

/-- C1 (amended): a selection fires only on a rising edge of the actionable
pinch condition with the strict cooldown `lastPinchTime + 1000 < now`; for
any two rising edges of the pinch signal with released frames in between, a
separation of less than 1000 ms yields exactly one fired selection and a
separation of strictly more than 1000 ms yields two (at exactly 1000 ms the
second edge is suppressed). -/
theorem C1_pinch_debounce (count : ℕ) (st : GalleryState) (ms : List MeshState)
    (p1 p2 : FrameInput) (mids : List FrameInput)
    (h1a : actionable p1.cursor) (h1w : st.isPinching = false)
    (h1c : st.lastPinchTime + 1000 < p1.now)
    (hmids : ∀ inp ∈ mids, ¬ actionable inp.cursor) (hne : mids ≠ [])
    (h2a : actionable p2.cursor) :
    (∀ (inp : FrameInput) (st' : GalleryState) (ms' : List MeshState),
      (frameUpdate count inp st' ms').fired ≠ none →
      actionable inp.cursor ∧ st'.isPinching = false ∧
        st'.lastPinchTime + 1000 < inp.now) ∧
    (p2.now < p1.now + 1000 →
      (firedTrace count (p1 :: (mids ++ [p2])) st ms).length = 1) ∧
    (p1.now + 1000 < p2.now →
      (firedTrace count (p1 :: (mids ++ [p2])) st ms).length = 2) := by
  obtain ⟨hf1, hl1, hp1⟩ := frame_fires count p1 st ms h1a h1w h1c
  obtain ⟨st2, ms2, heq, hlast, _, hne'⟩ := firedTrace_skip count mids [p2]
    (frameUpdate count p1 st ms).state (frameUpdate count p1 st ms).meshes hmids
  have hlast2 : st2.lastPinchTime = p1.now := by rw [hlast, hl1]
  have hflag2 : st2.isPinching = false := hne' hne
  refine ⟨?_, ?_, ?_⟩
  · intro inp st' ms' h
    rw [frameUpdate_fired] at h
    rcases hopt : (pinchStep inp.now inp.cursor
        (hoveredIndexOf inp.cursor inp.selectedIndex.isSome inp.rayHit)
        st'.activeIndex st'.isPinching st'.lastPinchTime).2.2 with _ | k
    · exact absurd hopt h
    · obtain ⟨ha, hw, hc, _⟩ := pinchStep_fired_shape hopt
      exact ⟨ha, hw, hc⟩
  · intro hlt
    obtain ⟨hf2, _, _⟩ := frame_cooldown count p2 st2 ms2 h2a
      (by
        intro hcc
        rw [hlast2] at hcc
        omega)
    rw [firedTrace_cons, hf1, heq, firedTrace_cons, hf2, firedTrace_nil]
    simp
  · intro hgt
    obtain ⟨hf2, _, _⟩ := frame_fires count p2 st2 ms2 h2a hflag2
      (by rw [hlast2]; exact hgt)
    rw [firedTrace_cons, hf1, heq, firedTrace_cons, hf2, firedTrace_nil]
    simp

/-- C1 witness: the debounce theorem at a concrete trace — pinch at 2000 ms,
release at 2500 ms, pinch again at 3500 ms (more than 1000 ms later). -/
theorem C1_pinch_debounce_witness :
    (∀ (inp : FrameInput) (st' : GalleryState) (ms' : List MeshState),
      (frameUpdate 1 inp st' ms').fired ≠ none →
      actionable inp.cursor ∧ st'.isPinching = false ∧
        st'.lastPinchTime + 1000 < inp.now) ∧
    ((3500 : ℕ) < 2000 + 1000 →
      (firedTrace 1 (⟨2000, ⟨0.5, 0.5, true, true⟩, none, none⟩ ::
        ([⟨2500, ⟨0.5, 0.5, false, true⟩, none, none⟩] ++
          [⟨3500, ⟨0.5, 0.5, true, true⟩, none, none⟩]))
        initialGalleryState [initialMeshState]).length = 1) ∧
    ((2000 : ℕ) + 1000 < 3500 →
      (firedTrace 1 (⟨2000, ⟨0.5, 0.5, true, true⟩, none, none⟩ ::
        ([⟨2500, ⟨0.5, 0.5, false, true⟩, none, none⟩] ++
          [⟨3500, ⟨0.5, 0.5, true, true⟩, none, none⟩]))
        initialGalleryState [initialMeshState]).length = 2) :=
  C1_pinch_debounce 1 initialGalleryState [initialMeshState]
    ⟨2000, ⟨0.5, 0.5, true, true⟩, none, none⟩
    ⟨3500, ⟨0.5, 0.5, true, true⟩, none, none⟩
    [⟨2500, ⟨0.5, 0.5, false, true⟩, none, none⟩]
    ⟨rfl, ⟨by norm_num, by norm_num, by norm_num, by norm_num⟩, rfl⟩
    rfl (by norm_num [initialGalleryState])
    (by
      intro inp hinp h
      rw [List.mem_singleton] at hinp
      rw [hinp] at h
      simpa using h.2.2)
    (by simp)
    ⟨rfl, ⟨by norm_num, by norm_num, by norm_num, by norm_num⟩, rfl⟩

/-! ### Claim C6 -/

theorem not_activeCond_self (v : ℝ) {count i : ℕ} {sc : ℝ}
    (harg : itemAngle count sc i = v) (h1 : -Real.pi < v) (h2 : v ≤ Real.pi)
    (hbig : angleStepOf count / 2 ≤ |v|) : ¬ activeCond count sc i :=
  not_activeCond_of_wrap_eq (by rw [harg]; exact wrapAngle_eq_self h1 h2) hbig

theorem not_activeCond_shift (v : ℝ) {count i : ℕ} {sc : ℝ}
    (harg : itemAngle count sc i = v) (h1 : Real.pi < v) (h2 : v ≤ 3 * Real.pi)
    (hbig : angleStepOf count / 2 ≤ |v - 2 * Real.pi|) : ¬ activeCond count sc i :=
  not_activeCond_of_wrap_eq (by rw [harg]; exact wrapAngle_eq_sub h1 h2) hbig

/-- C6 counterexample: with 8 items, a previous active index of 5, and the
frame's scroll position exactly at the boundary `angleStep/2 = pi/8`, no
item passes the strict front-most test, so the active index stays 5 — it
does not resolve to one of the two adjacent items (0 or 1) at the boundary,
contradicting the claim's boundary clause. -/
theorem C6_counterexample :
    (frameUpdate 8 ⟨0, ⟨0.5, 0.5, false, false⟩, none, none⟩
      ⟨Real.pi / 8, Real.pi / 8, 5, false, 0⟩
      (List.replicate 8 initialMeshState)).state.activeIndex = 5 := by
  have hpi := Real.pi_pos
  have hsc : scrollCurrentAfter ⟨0, ⟨0.5, 0.5, false, false⟩, none, none⟩
      ⟨Real.pi / 8, Real.pi / 8, 5, false, 0⟩ = Real.pi / 8 := by
    rw [scrollCurrentAfter, scrollTargetAfter_frozen (by intro h; simpa using h.2)]
    dsimp only
    ring
  rw [frameUpdate_activeIndex, hsc]
  refine activeIndexAfter_eq_init 5 ?_
  intro j hj
  interval_cases j
  · exact not_activeCond_self (-(Real.pi / 8)) (by rw [itemAngle, angleStepOf]; push_cast; ring)
      (by linarith) (by linarith)
      (by rw [abs_neg, abs_of_pos (by positivity), angleStepOf]; push_cast; linarith)
  · exact not_activeCond_self (Real.pi / 8) (by rw [itemAngle, angleStepOf]; push_cast; ring)
      (by linarith) (by linarith)
      (by rw [abs_of_pos (by positivity), angleStepOf]; push_cast; linarith)
  · exact not_activeCond_self (3 * Real.pi / 8) (by rw [itemAngle, angleStepOf]; push_cast; ring)
      (by linarith) (by linarith)
      (by rw [abs_of_pos (by positivity), angleStepOf]; push_cast; linarith)
  · exact not_activeCond_self (5 * Real.pi / 8) (by rw [itemAngle, angleStepOf]; push_cast; ring)
      (by linarith) (by linarith)
      (by rw [abs_of_pos (by positivity), angleStepOf]; push_cast; linarith)
  · exact not_activeCond_self (7 * Real.pi / 8) (by rw [itemAngle, angleStepOf]; push_cast; ring)
      (by linarith) (by linarith)
      (by rw [abs_of_pos (by positivity), angleStepOf]; push_cast; linarith)
  · exact not_activeCond_shift (9 * Real.pi / 8) (by rw [itemAngle, angleStepOf]; push_cast; ring)
      (by linarith) (by linarith)
      (by
        rw [show 9 * Real.pi / 8 - 2 * Real.pi = -(7 * Real.pi / 8) by ring,
          abs_neg, abs_of_pos (by positivity), angleStepOf]
        push_cast
        linarith)
  · exact not_activeCond_shift (11 * Real.pi / 8) (by rw [itemAngle, angleStepOf]; push_cast; ring)
      (by linarith) (by linarith)
      (by
        rw [show 11 * Real.pi / 8 - 2 * Real.pi = -(5 * Real.pi / 8) by ring,
          abs_neg, abs_of_pos (by positivity), angleStepOf]
        push_cast
        linarith)
  · exact not_activeCond_shift (13 * Real.pi / 8) (by rw [itemAngle, angleStepOf]; push_cast; ring)
      (by linarith) (by linarith)
      (by
        rw [show 13 * Real.pi / 8 - 2 * Real.pi = -(3 * Real.pi / 8) by ring,
          abs_neg, abs_of_pos (by positivity), angleStepOf]
        push_cast
        linarith)

/-- C6 (amended): with `N ≥ 1` items and no detail view open, if some item's
angle wrapped into `(-pi, pi]` is strictly within half an angle-step of zero
then that item is unique and becomes the active index after the frame; if no
item passes the strict test (in particular at an exact boundary
`± angleStep/2`), the active index retains its previous value rather than
resolving to an adjacent item. -/
theorem C6_active_index (count : ℕ) (inp : FrameInput) (st : GalleryState)
    (ms : List MeshState) (hc : 1 ≤ count) (hd : inp.selectedIndex = none) :
    (∀ istar : ℕ, istar < count →
      activeCond count (frameUpdate count inp st ms).state.scrollCurrent istar →
      (frameUpdate count inp st ms).state.activeIndex = istar) ∧
    ((∀ j, j < count →
        ¬ activeCond count (frameUpdate count inp st ms).state.scrollCurrent j) →
      (frameUpdate count inp st ms).state.activeIndex = st.activeIndex) := by
  constructor
  · intro istar hi hcond
    rw [frameUpdate_scrollCurrent] at hcond
    rw [frameUpdate_activeIndex, hd]
    exact activeIndexAfter_eq hc hi hcond st.activeIndex
  · intro hnone
    rw [frameUpdate_activeIndex]
    refine activeIndexAfter_eq_init st.activeIndex ?_
    intro j hj
    have := hnone j hj
    rwa [frameUpdate_scrollCurrent] at this

/-- C6 witness: with `N = 10` items, scroll at rest makes item 0 active, and
scroll advanced by exactly one angle-step makes item 1 active. -/
theorem C6_active_index_witness :
    (frameUpdate 10 ⟨0, ⟨0.5, 0.5, false, false⟩, none, none⟩ ⟨0, 0, 7, false, 0⟩
      (List.replicate 10 initialMeshState)).state.activeIndex = 0 ∧
    (frameUpdate 10 ⟨0, ⟨0.5, 0.5, false, false⟩, none, none⟩
      ⟨2 * Real.pi / 10, 2 * Real.pi / 10, 0, false, 0⟩
      (List.replicate 10 initialMeshState)).state.activeIndex = 1 := by
  constructor
  · refine (C6_active_index 10 ⟨0, ⟨0.5, 0.5, false, false⟩, none, none⟩
      ⟨0, 0, 7, false, 0⟩ (List.replicate 10 initialMeshState)
      (by norm_num) rfl).1 0 (by norm_num) ?_
    have hsc : (frameUpdate 10 ⟨0, ⟨0.5, 0.5, false, false⟩, none, none⟩
        ⟨0, 0, 7, false, 0⟩ (List.replicate 10 initialMeshState)).state.scrollCurrent
        = 0 := by
      rw [frameUpdate_scrollCurrent, scrollCurrentAfter,
        scrollTargetAfter_frozen (by intro h; simpa using h.2)]
      dsimp only
      norm_num
    rw [hsc]
    exact activeCond_of_angle_zero (by norm_num) (by rw [itemAngle]; norm_num)
  · refine (C6_active_index 10 ⟨0, ⟨0.5, 0.5, false, false⟩, none, none⟩
      ⟨2 * Real.pi / 10, 2 * Real.pi / 10, 0, false, 0⟩
      (List.replicate 10 initialMeshState)
      (by norm_num) rfl).1 1 (by norm_num) ?_
    have hsc : (frameUpdate 10 ⟨0, ⟨0.5, 0.5, false, false⟩, none, none⟩
        ⟨2 * Real.pi / 10, 2 * Real.pi / 10, 0, false, 0⟩
        (List.replicate 10 initialMeshState)).state.scrollCurrent
        = 2 * Real.pi / 10 := by
      rw [frameUpdate_scrollCurrent, scrollCurrentAfter,
        scrollTargetAfter_frozen (by intro h; simpa using h.2)]
      dsimp only
      ring
    rw [hsc]
    exact activeCond_of_angle_zero (by norm_num)
      (by rw [itemAngle, angleStepOf]; push_cast; ring)

/-! ### Claim C5 -/

theorem activeCond_frame_one : activeCond 100 (0.02 : ℝ) 0 := by
  have harg : itemAngle 100 (0.02 : ℝ) 0 = -(0.02 : ℝ) := by
    rw [itemAngle]
    push_cast
    ring
  rw [activeCond, harg,
    wrapAngle_eq_self (by nlinarith [Real.pi_gt_three]) (by nlinarith [Real.pi_gt_three]),
    abs_neg, abs_of_pos (by norm_num), angleStepOf]
  push_cast
  nlinarith [Real.pi_gt_three]

theorem activeCond_frame_two : activeCond 100 (0.058 : ℝ) 1 := by
  have harg : itemAngle 100 (0.058 : ℝ) 1 = 2 * Real.pi / 100 - 0.058 := by
    rw [itemAngle, angleStepOf]
    push_cast
    ring
  rw [activeCond, harg,
    wrapAngle_eq_self (by nlinarith [Real.pi_gt_three]) (by nlinarith [Real.pi_gt_three]),
    abs_of_pos (by nlinarith [Real.pi_gt_three]), angleStepOf]
  push_cast
  nlinarith [Real.pi_lt_d2]

theorem frame_one_state :
    (frameUpdate 100 ⟨0, ⟨1, 0.5, false, true⟩, none, none⟩ ⟨0, 0, 0, false, 0⟩
      (List.replicate 100 initialMeshState)).state = ⟨0.02, 0.2, 0, false, 0⟩ := by
  have hta : scrollTargetAfter ⟨0, ⟨1, 0.5, false, true⟩, none, none⟩
      ⟨0, 0, 0, false, 0⟩ = 0.2 := by
    rw [scrollTargetAfter_scrolling rfl rfl]
    dsimp only
    rw [targetSpeed_at_one]
    norm_num
  have hca : scrollCurrentAfter ⟨0, ⟨1, 0.5, false, true⟩, none, none⟩
      ⟨0, 0, 0, false, 0⟩ = 0.02 := by
    rw [scrollCurrentAfter, hta]
    dsimp only
    norm_num
  have hna : ¬ actionable (⟨1, 0.5, false, true⟩ : Cursor) := by
    intro h
    simpa using h.2.2
  refine GalleryState.ext ?_ ?_ ?_ ?_ ?_
  · rw [frameUpdate_scrollCurrent, hca]
  · rw [frameUpdate_scrollTarget, hta]
  · rw [frameUpdate_activeIndex, hca]
    dsimp only
    exact activeIndexAfter_eq (by norm_num) (by norm_num) activeCond_frame_one 0
  · rw [frameUpdate_isPinching, pinchStep_idle hna]
  · rw [frameUpdate_lastPinchTime, pinchStep_idle hna]

theorem frame_one_meshes :
    (frameUpdate 100 ⟨0, ⟨1, 0.5, false, true⟩, none, none⟩ ⟨0, 0, 0, false, 0⟩
      (List.replicate 100 initialMeshState)).meshes
      = List.replicate 100 initialMeshState := by
  rw [frameUpdate_meshes]
  dsimp only
  rw [hoveredIndexOf_rayNone]
  exact meshesAfter_idle 100

theorem frame_two_state :
    (frameUpdate 100 ⟨0, ⟨1, 0.5, false, true⟩, none, none⟩ ⟨0.02, 0.2, 0, false, 0⟩
      (List.replicate 100 initialMeshState)).state = ⟨0.058, 0.4, 1, false, 0⟩ := by
  have hta : scrollTargetAfter ⟨0, ⟨1, 0.5, false, true⟩, none, none⟩
      ⟨0.02, 0.2, 0, false, 0⟩ = 0.4 := by
    rw [scrollTargetAfter_scrolling rfl rfl]
    dsimp only
    rw [targetSpeed_at_one]
    norm_num
  have hca : scrollCurrentAfter ⟨0, ⟨1, 0.5, false, true⟩, none, none⟩
      ⟨0.02, 0.2, 0, false, 0⟩ = 0.058 := by
    rw [scrollCurrentAfter, hta]
    dsimp only
    norm_num
  have hna : ¬ actionable (⟨1, 0.5, false, true⟩ : Cursor) := by
    intro h
    simpa using h.2.2
  refine GalleryState.ext ?_ ?_ ?_ ?_ ?_
  · rw [frameUpdate_scrollCurrent, hca]
  · rw [frameUpdate_scrollTarget, hta]
  · rw [frameUpdate_activeIndex, hca]
    dsimp only
    exact activeIndexAfter_eq (by norm_num) (by norm_num) activeCond_frame_two 0
  · rw [frameUpdate_isPinching, pinchStep_idle hna]
  · rw [frameUpdate_lastPinchTime, pinchStep_idle hna]

theorem frame_two_meshes :
    (frameUpdate 100 ⟨0, ⟨1, 0.5, false, true⟩, none, none⟩ ⟨0.02, 0.2, 0, false, 0⟩
      (List.replicate 100 initialMeshState)).meshes
      = List.replicate 100 initialMeshState := by
  rw [frameUpdate_meshes]
  dsimp only
  rw [hoveredIndexOf_rayNone]
  exact meshesAfter_idle 100

/-- C5 counterexample: a reachable state violating the invariant.  Mount
with 10 items, upload 100 items (state reset), hold the visible cursor at
the right edge `x = 1` for two frames — the scroll reaches `0.058` and item
1 becomes active — then upload a single item.  The item-set reset (lines
227-231) clears only the scroll, so immediately after it `activeIndex = 1`
while the non-empty item set has only index 0. -/
theorem C5_counterexample :
    Reachable ⟨1, ⟨0, 0, 1, false, 0⟩, List.replicate 1 initialMeshState⟩ ∧
    1 ≤ (⟨1, ⟨0, 0, 1, false, 0⟩, List.replicate 1 initialMeshState⟩ : SysState).count ∧
    ¬ ((⟨1, ⟨0, 0, 1, false, 0⟩, List.replicate 1 initialMeshState⟩ : SysState).st.activeIndex
        < (⟨1, ⟨0, 0, 1, false, 0⟩, List.replicate 1 initialMeshState⟩ : SysState).count) := by
  refine ⟨?_, by norm_num, by norm_num⟩
  have h2 : Reachable ⟨100, ⟨0, 0, 0, false, 0⟩, List.replicate 100 initialMeshState⟩ :=
    Reachable.change 100 (by norm_num) (Reachable.init 10)
  have h3 := Reachable.frame ⟨0, ⟨1, 0.5, false, true⟩, none, none⟩
    (by norm_num) (by norm_num) (by norm_num) (by norm_num)
    (by intro j hj; simp at hj) h2
  rw [frame_one_state, frame_one_meshes] at h3
  have h4 := Reachable.frame ⟨0, ⟨1, 0.5, false, true⟩, none, none⟩
    (by norm_num) (by norm_num) (by norm_num) (by norm_num)
    (by intro j hj; simp at hj) h3
  rw [frame_two_state, frame_two_meshes] at h4
  exact Reachable.change 1 (le_refl 1) h4

/-- C5 (amended): the active index is valid at initialization and every
frame update preserves its validity for a fixed non-empty item set (the scan
only ever writes loop indices below the item count); the invariant can break
only through the item-set reset, which preserves `activeIndex` while the
count shrinks (see the counterexample). -/
theorem C5_active_valid (count : ℕ) (hc : 1 ≤ count) :
    initialGalleryState.activeIndex < count ∧
    ∀ (inp : FrameInput) (st : GalleryState) (ms : List MeshState),
      st.activeIndex < count →
      (frameUpdate count inp st ms).state.activeIndex < count := by
  refine ⟨hc, fun inp st ms h => ?_⟩
  rw [frameUpdate_activeIndex]
  exact activeIndexAfter_lt h

/-- C5 witness: validity preserved across a concrete frame with 3 items. -/
theorem C5_active_valid_witness :
    initialGalleryState.activeIndex < 3 ∧
    (frameUpdate 3 ⟨0, ⟨0.5, 0.5, false, false⟩, none, none⟩ ⟨0, 0, 2, false, 0⟩
      (List.replicate 3 initialMeshState)).state.activeIndex < 3 :=
  ⟨(C5_active_valid 3 (by norm_num)).1,
    (C5_active_valid 3 (by norm_num)).2 ⟨0, ⟨0.5, 0.5, false, false⟩, none, none⟩
      ⟨0, 0, 2, false, 0⟩ (List.replicate 3 initialMeshState) (by norm_num)⟩

end Jabidan
